import Mathlib

/-!
Shallow embedding of the TIFF/EXIF attribute parser of the exif-rs crate
(`src/tiff.rs`), together with theorems about its structural properties.

The core functions `parse_exif`, `parse_exif_sub`, `parse_ifd`,
`parse_child_ifd` and `DateTime.from_ascii` are translated directly from
`src/tiff.rs`.  The external collaborators that the crate pulls in from other
modules (the endianness-aware loads, the per-type decoder table, the tag
classification, the `get_uint` value accessor and `atou16`) are not part of
the given sources and are modelled from the specification, as indicated by
their doc comments.

Buffers are `List Nat` (one byte per element).  Machine `usize` arithmetic is
`Nat`; the single place where `usize` overflow matters (`checked_mul`) checks
the product against `2^64 - 1` explicitly.  A read that the Rust code would
perform out of bounds (a panic of the native slice indexing) is modelled by
the dedicated result `TiffResult.oob`, and the recursion of `parse_ifd` is
made total with a fuel parameter whose exhaustion is the dedicated result
`TiffResult.outOfFuel`; the theorems below show that neither result is ever
produced by the top-level parser.
-/

namespace Exif

/-- The two byte orders of a TIFF stream. -/
inductive Endianness where
  | big
  | little
deriving DecidableEq, Repr

/-- Error type of the crate: a structural format error or the blank-value
error of the `DateTime` utility, each carrying a short reason string. -/
inductive Error where
  | invalidFormat (msg : String)
  | blankValue (msg : String)
deriving DecidableEq, Repr

/-- Result of an embedded computation.  `ok`/`err` mirror Rust's `Result`;
`oob` marks an out-of-bounds read that native code would perform (a panic
branch), and `outOfFuel` marks exhaustion of the fuel that makes the embedded
recursion total. -/
inductive TiffResult (α : Type) where
  | ok (a : α)
  | err (e : Error)
  | oob
  | outOfFuel
deriving DecidableEq, Repr

/-- Map over the `ok` payload, keeping every other outcome. -/
def TiffResult.map {α β : Type} (f : α → β) : TiffResult α → TiffResult β
  | .ok a => .ok (f a)
  | .err e => .err e
  | .oob => .oob
  | .outOfFuel => .outOfFuel

/-- Sequencing in the style of Rust's `try!`: the first non-`ok` outcome is
propagated. -/
def TiffResult.bind {α β : Type} : TiffResult α → (α → TiffResult β) → TiffResult β
  | .ok a, f => f a
  | .err e, _ => .err e
  | .oob, _ => .oob
  | .outOfFuel, _ => .outOfFuel

/-- Modelled from the spec: the byte-order accessor capability `read_u16`
(`Endian::loadu16` lives outside the given sources).  Returns `none` when the
2-byte range is not inside the buffer, which models the panic of the native
accessor. -/
def loadu16 (en : Endianness) (data : List Nat) (offset : Nat) : Option Nat :=
  if offset + 2 ≤ data.length then
    some (match en with
      | .big => data.getD offset 0 * 256 + data.getD (offset + 1) 0
      | .little => data.getD (offset + 1) 0 * 256 + data.getD offset 0)
  else none

/-- Modelled from the spec: the byte-order accessor capability `read_u32`
(`Endian::loadu32` lives outside the given sources).  Returns `none` when the
4-byte range is not inside the buffer. -/
def loadu32 (en : Endianness) (data : List Nat) (offset : Nat) : Option Nat :=
  if offset + 4 ≤ data.length then
    some (match en with
      | .big =>
        ((data.getD offset 0 * 256 + data.getD (offset + 1) 0) * 256 +
          data.getD (offset + 2) 0) * 256 + data.getD (offset + 3) 0
      | .little =>
        ((data.getD (offset + 3) 0 * 256 + data.getD (offset + 2) 0) * 256 +
          data.getD (offset + 1) 0) * 256 + data.getD offset 0)
  else none

/-- Interpret a `bits`-wide unsigned value as two's-complement signed. -/
def toSigned (bits x : Nat) : Int :=
  if 2 * x < 2 ^ bits then (x : Int) else (x : Int) - 2 ^ bits

/-- Modelled from the spec: a decoded, typed payload — collections of
unsigned/signed integers, rationals, byte/ASCII/undefined strings, or the
`Unknown` placeholder carrying the raw type code, count and the offset of the
raw value slot (`value::Value` lives outside the given sources). -/
inductive Value where
  | byte (v : List Nat)
  | ascii (raw : List Nat)
  | short (v : List Nat)
  | long (v : List Nat)
  | rational (v : List (Nat × Nat))
  | sbyte (v : List Int)
  | undef (raw : List Nat)
  | sshort (v : List Int)
  | slong (v : List Int)
  | srational (v : List (Int × Int))
  | unknown (typ cnt ofs : Nat)
deriving DecidableEq, Repr

/-- Modelled from the spec: the value accessor "yielding the single unsigned
integer this value represents, if it is exactly one integer-like element",
used for sub-IFD pointer resolution (`Value::get_uint` lives outside the
given sources). -/
def Value.get_uint : Value → Nat → Option Nat
  | .byte [x], 0 => some x
  | .short [x], 0 => some x
  | .long [x], 0 => some x
  | _, _ => none

/-- Modelled from the spec: the on-disk size of one value unit for each TIFF
type code; an unrecognized code maps to unit size 0 (`value::get_type_info`
lives outside the given sources). -/
def typeUnitLen (typ : Nat) : Nat :=
  if typ = 1 then 1
  else if typ = 2 then 1
  else if typ = 3 then 2
  else if typ = 4 then 4
  else if typ = 5 then 8
  else if typ = 6 then 1
  else if typ = 7 then 1
  else if typ = 8 then 2
  else if typ = 9 then 4
  else if typ = 10 then 8
  else 0

/-- Read one unsigned unit of width `unit` (1, 2 or 4 bytes) at `pos`. -/
def readUnit (en : Endianness) (unit : Nat) (data : List Nat) (pos : Nat) : Option Nat :=
  if unit = 1 then (if pos + 1 ≤ data.length then some (data.getD pos 0) else none)
  else if unit = 2 then loadu16 en data pos
  else if unit = 4 then loadu32 en data pos
  else none

/-- Read `cnt` consecutive units of width `unit` starting at `pos`. -/
def readUnits (en : Endianness) (unit : Nat) (data : List Nat) :
    Nat → Nat → Option (List Nat)
  | 0, _ => some []
  | c + 1, pos =>
    match readUnit en unit data pos, readUnits en unit data c (pos + unit) with
    | some v, some l => some (v :: l)
    | _, _ => none

/-- Group a flat list into consecutive pairs. -/
def pairUp : List Nat → List (Nat × Nat)
  | a :: b :: rest => (a, b) :: pairUp rest
  | _ => []

/-- Group a flat list of 32-bit words into consecutive signed pairs. -/
def pairIntUp (l : List Nat) : List (Int × Int) :=
  (pairUp l).map (fun p => (toSigned 32 p.1, toSigned 32 p.2))

/-- Modelled from the spec: the per-type decoder function
`decode_fn(buffer, offset, count) -> Value` of the type dispatch table
(`value::get_type_info` lives outside the given sources).  `none` models an
out-of-bounds read by a native decoder. -/
def typeDecode (en : Endianness) (typ : Nat) (data : List Nat) (pos cnt : Nat) :
    Option Value :=
  if typ = 1 then (readUnits en 1 data cnt pos).map Value.byte
  else if typ = 2 then (readUnits en 1 data cnt pos).map Value.ascii
  else if typ = 3 then (readUnits en 2 data cnt pos).map Value.short
  else if typ = 4 then (readUnits en 4 data cnt pos).map Value.long
  else if typ = 5 then
    (readUnits en 4 data (2 * cnt) pos).map (fun l => Value.rational (pairUp l))
  else if typ = 6 then
    (readUnits en 1 data cnt pos).map (fun l => Value.sbyte (l.map (toSigned 8)))
  else if typ = 7 then (readUnits en 1 data cnt pos).map Value.undef
  else if typ = 8 then
    (readUnits en 2 data cnt pos).map (fun l => Value.sshort (l.map (toSigned 16)))
  else if typ = 9 then
    (readUnits en 4 data cnt pos).map (fun l => Value.slong (l.map (toSigned 32)))
  else if typ = 10 then
    (readUnits en 4 data (2 * cnt) pos).map (fun l => Value.srational (pairIntUp l))
  else none

/-- The tag-number namespace currently being interpreted
(`tag_priv::Context`). -/
inductive Context where
  | tiff
  | exif
  | gps
  | interop
deriving DecidableEq, Repr

/-- A tag identity: the (directory context, numeric tag) pair
(`tag_priv::Tag`). -/
structure Tag where
  ctx : Context
  num : Nat
deriving DecidableEq, Repr

/-- A TIFF field (`Field` in `src/tiff.rs`): tag identity, the thumbnail
flag, and the decoded value. -/
structure Field where
  tag : Tag
  thumbnail : Bool
  value : Value
deriving DecidableEq, Repr

/-- Modelled from the spec: the tag/context resolver identifying which
(context, tag) pairs are sub-directory pointer tags and which child context
each introduces — "TIFF → {Exif, GPS, Interop}; the three children introduce
none" (`tag::ExifIFDPointer` and friends live outside the given sources). -/
def pointer_child : Context → Nat → Option Context
  | .tiff, t =>
    if t = 0x8769 then some .exif
    else if t = 0x8825 then some .gps
    else if t = 0xa005 then some .interop
    else none
  | _, _ => none

/-- Largest value of a 64-bit `usize`, the bound of `checked_mul`. -/
def USIZE_MAX : Nat := 2 ^ 64 - 1

/-- Per-entry value resolution of `parse_ifd` (`src/tiff.rs` lines 103-117):
`checked_mul` overflow check, the unrecognized-type (`Unknown`) branch, the
inline (≤ 4 bytes) branch, and the indirect branch with its bounds check. -/
def entry_value (en : Endianness) (data : List Nat) (typ cnt valofs_at : Nat) :
    TiffResult Value :=
  let unitlen := typeUnitLen typ
  if USIZE_MAX < unitlen * cnt then .err (.invalidFormat "Invalid entry count")
  else if unitlen = 0 then .ok (.unknown typ cnt valofs_at)
  else if unitlen * cnt ≤ 4 then
    match typeDecode en typ data valofs_at cnt with
    | some v => .ok v
    | none => .oob
  else
    match loadu32 en data valofs_at with
    | none => .oob
    | some ofs =>
      if data.length < ofs ∨ data.length - ofs < unitlen * cnt then
        .err (.invalidFormat "Truncated field value")
      else
        match typeDecode en typ data ofs cnt with
        | some v => .ok v
        | none => .oob

/-- The entry loop of `parse_ifd` (`src/tiff.rs` lines 98-132), processing
`rem` remaining entries starting at index `i`.  The call into
`parse_child_ifd` is abstracted as the `child` argument so that the loop is
recursive only on `rem`; `parse_ifd` instantiates it with the source's child
walk. -/
def parse_entries (child : List Field → Value → Context → TiffResult (List Field))
    (en : Endianness) (data : List Nat) (offset : Nat) (ctx : Context)
    (thumbnail : Bool) : Nat → Nat → List Field → TiffResult (List Field)
  | 0, _, fields => .ok fields
  | rem + 1, i, fields =>
    match loadu16 en data (offset + 2 + i * 12),
          loadu16 en data (offset + 2 + i * 12 + 2),
          loadu32 en data (offset + 2 + i * 12 + 4) with
    | some tagnum, some typ, some cnt =>
      match entry_value en data typ cnt (offset + 2 + i * 12 + 8) with
      | .ok val =>
        match pointer_child ctx tagnum with
        | some cctx =>
          match child fields val cctx with
          | .ok fields2 => parse_entries child en data offset ctx thumbnail rem (i + 1) fields2
          | r => r
        | none =>
          parse_entries child en data offset ctx thumbnail rem (i + 1)
            (fields ++ [{ tag := ⟨ctx, tagnum⟩, thumbnail := thumbnail, value := val }])
      | .err e => .err e
      | .oob => .oob
      | .outOfFuel => .outOfFuel
    | _, _, _ => .oob

/-- The IFD walker `parse_ifd` of `src/tiff.rs` (lines 85-146), with a fuel
parameter that bounds the recursion depth.  Every nested walk (a child IFD or
the next IFD in the primary chain) runs on one unit of fuel less. -/
def parse_ifd (en : Endianness) : Nat → List Field → List Nat → Nat → Context → Bool →
    TiffResult (List Field)
  | 0, _, _, _, _, _ => .outOfFuel
  | f + 1, fields, data, offset, ctx, thumbnail =>
    if data.length < offset ∨ data.length - offset < 2 then
      .err (.invalidFormat "Truncated IFD count")
    else
      match loadu16 en data offset with
      | none => .oob
      | some count =>
        if data.length - offset - 2 < count * 12 then
          .err (.invalidFormat "Truncated IFD")
        else
          match parse_entries
              (fun fl val cctx =>
                match val.get_uint 0 with
                | none => .err (.invalidFormat "Invalid pointer")
                | some ofs => parse_ifd en f fl data ofs cctx thumbnail)
              en data offset ctx thumbnail count 0 fields with
          | .ok fields2 =>
            if data.length - offset - 2 - count * 12 < 4 then
              .err (.invalidFormat "Truncated next IFD offset")
            else
              match loadu32 en data (offset + 2 + count * 12) with
              | none => .oob
              | some next =>
                if next = 0 then .ok fields2
                else if ctx ≠ Context.tiff ∨ thumbnail = true then
                  .err (.invalidFormat "Unexpected next IFD")
                else parse_ifd en f fields2 data next Context.tiff true
          | r => r

/-- `parse_child_ifd` of `src/tiff.rs` (lines 148-157): the pointer value
must expose a single unsigned integer, which is then used as the child IFD's
offset. -/
def parse_child_ifd (en : Endianness) (fuel : Nat) (fields : List Field)
    (data : List Nat) (pointer : Value) (ctx : Context) (thumbnail : Bool) :
    TiffResult (List Field) :=
  match pointer.get_uint 0 with
  | none => .err (.invalidFormat "Invalid pointer")
  | some ofs => parse_ifd en fuel fields data ofs ctx thumbnail

/-- TIFF big-endian byte-order magic. -/
def TIFF_BE : Nat := 0x4d4d

/-- TIFF little-endian byte-order magic. -/
def TIFF_LE : Nat := 0x4949

/-- The fixed marker in bytes 2-3 of the header. -/
def TIFF_FORTY_TWO : Nat := 0x002a

/-- Fuel with which the top-level parser runs the IFD walker.  Theorem `c2`
shows this bound is never exhausted, for any input. -/
def ifdFuel : Nat := 3

/-- `parse_exif_sub` of `src/tiff.rs` (lines 72-82): validates the forty-two
marker, reads the 0th-IFD offset and starts the walk with context
`Context.tiff` and thumbnail flag `false`. -/
def parse_exif_sub (en : Endianness) (data : List Nat) : TiffResult (List Field) :=
  if loadu16 en data 2 ≠ some TIFF_FORTY_TWO then
    .err (.invalidFormat "Invalid forty two")
  else
    match loadu32 en data 4 with
    | none => .oob
    | some ifd_offset => parse_ifd en ifdFuel [] data ifd_offset Context.tiff false

/-- `parse_exif` of `src/tiff.rs` (lines 60-70): checks the minimum length,
detects the byte order from bytes 0-1 read big-endian, and dispatches to the
byte-order-specialized sub-parser; the returned flag is true for little
endian. -/
def parse_exif (data : List Nat) : TiffResult (List Field × Bool) :=
  if data.length < 8 then .err (.invalidFormat "Truncated TIFF header")
  else
    match loadu16 .big data 0 with
    | none => .oob
    | some m =>
      if m = TIFF_BE then (parse_exif_sub .big data).map (fun v => (v, false))
      else if m = TIFF_LE then (parse_exif_sub .little data).map (fun v => (v, true))
      else .err (.invalidFormat "Invalid TIFF byte order")

/-- Recursion depth the walker actually needs from a given context and
thumbnail flag: the primary 0th IFD may chain the 1st IFD, which may still
descend into child IFDs; children recurse no further. -/
def contextRank : Context → Bool → Nat
  | .tiff, false => 3
  | .tiff, true => 2
  | _, _ => 1

/-- The `DateTime` struct of `src/tiff.rs`. -/
structure DateTime where
  year : Nat
  month : Nat
  day : Nat
  hour : Nat
  minute : Nat
  second : Nat
deriving DecidableEq, Repr

/-- The blank sentinel `b"    :  :     :  :  "` (19 bytes). -/
def dtBlank1 : List Nat :=
  [32, 32, 32, 32, 58, 32, 32, 58, 32, 32, 32, 32, 32, 58, 32, 32, 58, 32, 32]

/-- The blank sentinel of 19 space bytes. -/
def dtBlank2 : List Nat := List.replicate 19 32

/-- The byte slice `data[a..b]`. -/
def sliceBytes (data : List Nat) (a b : Nat) : List Nat :=
  (data.drop a).take (b - a)

/-- Modelled from the spec: ASCII-decimal conversion used by the timestamp
parser (`util::atou16` lives outside the given sources); a non-digit or empty
input is a structural error, and the result is a 16-bit value. -/
def atou16 (s : List Nat) : TiffResult Nat :=
  if s.length = 0 ∨ ¬ s.all (fun c => decide (48 ≤ c ∧ c ≤ 57)) then
    .err (.invalidFormat "Not a number")
  else .ok ((s.foldl (fun acc c => acc * 10 + (c - 48)) 0) % 65536)

/-- `DateTime::from_ascii` of `src/tiff.rs` (lines 185-202): the two blank
sentinels, the length check, the delimiter check, and the six fixed-position
numeric slices (the `as u8` narrowing of the source is the `% 256`). -/
def DateTime.from_ascii (data : List Nat) : TiffResult DateTime :=
  if data = dtBlank1 ∨ data = dtBlank2 then .err (.blankValue "DateTime is blank")
  else if data.length < 19 then .err (.invalidFormat "DateTime too short")
  else if ¬ (data.getD 4 0 = 58 ∧ data.getD 7 0 = 58 ∧ data.getD 10 0 = 32 ∧
      data.getD 13 0 = 58 ∧ data.getD 16 0 = 58) then
    .err (.invalidFormat "Invalid DateTime delimiter")
  else
    (atou16 (sliceBytes data 0 4)).bind fun y =>
    (atou16 (sliceBytes data 5 7)).bind fun mo =>
    (atou16 (sliceBytes data 8 10)).bind fun d =>
    (atou16 (sliceBytes data 11 13)).bind fun h =>
    (atou16 (sliceBytes data 14 16)).bind fun mi =>
    (atou16 (sliceBytes data 17 19)).bind fun s =>
    .ok ⟨y, mo % 256, d % 256, h % 256, mi % 256, s % 256⟩

/-! ### Helper lemmas -/

theorem map_eq_err {α β : Type} (f : α → β) (r : TiffResult α) (e : Error) :
    r.map f = .err e ↔ r = .err e := by
  cases r <;> simp [TiffResult.map]

theorem map_eq_oob {α β : Type} (f : α → β) (r : TiffResult α) :
    r.map f = .oob ↔ r = .oob := by
  cases r <;> simp [TiffResult.map]

theorem map_eq_ok {α β : Type} (f : α → β) (r : TiffResult α) (b : β) :
    r.map f = .ok b ↔ ∃ a, r = .ok a ∧ b = f a := by
  cases r
  case ok a => simp [TiffResult.map]; tauto
  all_goals simp [TiffResult.map]

theorem loadu16_isSome (en : Endianness) (data : List Nat) (offset : Nat) :
    (loadu16 en data offset).isSome ↔ offset + 2 ≤ data.length := by
  unfold loadu16; split <;> simp_all

theorem loadu32_isSome (en : Endianness) (data : List Nat) (offset : Nat) :
    (loadu32 en data offset).isSome ↔ offset + 4 ≤ data.length := by
  unfold loadu32; split <;> simp_all

theorem loadu16_bound {en : Endianness} {data : List Nat} {offset v : Nat}
    (h : loadu16 en data offset = some v) : offset + 2 ≤ data.length := by
  have := (loadu16_isSome en data offset).1 (by simp [h])
  exact this

theorem loadu32_bound {en : Endianness} {data : List Nat} {offset v : Nat}
    (h : loadu32 en data offset = some v) : offset + 4 ≤ data.length := by
  have := (loadu32_isSome en data offset).1 (by simp [h])
  exact this

theorem readUnit_isSome {en : Endianness} {unit : Nat} {data : List Nat} {pos : Nat}
    (hu : unit = 1 ∨ unit = 2 ∨ unit = 4) (h : pos + unit ≤ data.length) :
    (readUnit en unit data pos).isSome := by
  rcases hu with hu | hu | hu <;> subst hu <;>
    simp [readUnit, loadu16_isSome, loadu32_isSome, h]

theorem readUnits_isSome {en : Endianness} {unit : Nat} {data : List Nat}
    (hu : unit = 1 ∨ unit = 2 ∨ unit = 4) :
    ∀ (cnt pos : Nat), pos + unit * cnt ≤ data.length →
      (readUnits en unit data cnt pos).isSome := by
  intro cnt
  induction cnt with
  | zero => intro pos _; simp [readUnits]
  | succ c ih =>
    intro pos h
    rw [Nat.mul_succ] at h
    have h1 : pos + unit ≤ data.length := by
      have : 0 ≤ unit * c := Nat.zero_le _
      omega
    have h2 : (pos + unit) + unit * c ≤ data.length := by omega
    obtain ⟨v, hv⟩ := Option.isSome_iff_exists.1 (@readUnit_isSome en unit data pos hu h1)
    obtain ⟨l, hl⟩ := Option.isSome_iff_exists.1 (ih (pos + unit) h2)
    simp [readUnits, hv, hl]

theorem typeDecode_isSome {en : Endianness} {typ : Nat} {data : List Nat} {pos cnt : Nat}
    (h0 : typeUnitLen typ ≠ 0) (h : pos + typeUnitLen typ * cnt ≤ data.length) :
    (typeDecode en typ data pos cnt).isSome := by
  unfold typeUnitLen at h0 h
  unfold typeDecode
  by_cases h1 : typ = 1
  · rw [if_pos h1] at h ⊢
    simp only [Option.isSome_map']
    exact readUnits_isSome (Or.inl rfl) cnt pos (by omega)
  rw [if_neg h1] at h0 h ⊢
  by_cases h2 : typ = 2
  · rw [if_pos h2] at h ⊢
    simp only [Option.isSome_map']
    exact readUnits_isSome (Or.inl rfl) cnt pos (by omega)
  rw [if_neg h2] at h0 h ⊢
  by_cases h3 : typ = 3
  · rw [if_pos h3] at h ⊢
    simp only [Option.isSome_map']
    exact readUnits_isSome (Or.inr (Or.inl rfl)) cnt pos (by omega)
  rw [if_neg h3] at h0 h ⊢
  by_cases h4 : typ = 4
  · rw [if_pos h4] at h ⊢
    simp only [Option.isSome_map']
    exact readUnits_isSome (Or.inr (Or.inr rfl)) cnt pos (by omega)
  rw [if_neg h4] at h0 h ⊢
  by_cases h5 : typ = 5
  · rw [if_pos h5] at h ⊢
    simp only [Option.isSome_map']
    exact readUnits_isSome (Or.inr (Or.inr rfl)) (2 * cnt) pos (by omega)
  rw [if_neg h5] at h0 h ⊢
  by_cases h6 : typ = 6
  · rw [if_pos h6] at h ⊢
    simp only [Option.isSome_map']
    exact readUnits_isSome (Or.inl rfl) cnt pos (by omega)
  rw [if_neg h6] at h0 h ⊢
  by_cases h7 : typ = 7
  · rw [if_pos h7] at h ⊢
    simp only [Option.isSome_map']
    exact readUnits_isSome (Or.inl rfl) cnt pos (by omega)
  rw [if_neg h7] at h0 h ⊢
  by_cases h8 : typ = 8
  · rw [if_pos h8] at h ⊢
    simp only [Option.isSome_map']
    exact readUnits_isSome (Or.inr (Or.inl rfl)) cnt pos (by omega)
  rw [if_neg h8] at h0 h ⊢
  by_cases h9 : typ = 9
  · rw [if_pos h9] at h ⊢
    simp only [Option.isSome_map']
    exact readUnits_isSome (Or.inr (Or.inr rfl)) cnt pos (by omega)
  rw [if_neg h9] at h0 h ⊢
  by_cases h10 : typ = 10
  · rw [if_pos h10] at h ⊢
    simp only [Option.isSome_map']
    exact readUnits_isSome (Or.inr (Or.inr rfl)) (2 * cnt) pos (by omega)
  rw [if_neg h10] at h0
  exact absurd rfl h0

theorem entry_value_ne_oob {en : Endianness} {data : List Nat} {typ cnt valofs_at : Nat}
    (h : valofs_at + 4 ≤ data.length) :
    entry_value en data typ cnt valofs_at ≠ .oob := by
  simp only [entry_value]
  by_cases hov : USIZE_MAX < typeUnitLen typ * cnt
  · simp [hov]
  rw [if_neg hov]
  by_cases h0 : typeUnitLen typ = 0
  · simp [h0]
  rw [if_neg h0]
  by_cases hle : typeUnitLen typ * cnt ≤ 4
  · rw [if_pos hle]
    obtain ⟨v, hv⟩ := Option.isSome_iff_exists.1
      (@typeDecode_isSome en typ data valofs_at cnt h0 (show valofs_at + typeUnitLen typ * cnt ≤ data.length by omega))
    simp only [hv]
    simp
  · rw [if_neg hle]
    obtain ⟨p, hp⟩ := Option.isSome_iff_exists.1 ((loadu32_isSome en data valofs_at).2 h)
    simp only [hp]
    by_cases hb : data.length < p ∨ data.length - p < typeUnitLen typ * cnt
    · simp [hb]
    rw [if_neg hb]
    obtain ⟨v, hv⟩ := Option.isSome_iff_exists.1
      (@typeDecode_isSome en typ data p cnt h0 (show p + typeUnitLen typ * cnt ≤ data.length by omega))
    simp only [hv]
    simp

theorem entry_value_ne_outOfFuel {en : Endianness} {data : List Nat} {typ cnt valofs_at : Nat} :
    entry_value en data typ cnt valofs_at ≠ .outOfFuel := by
  simp only [entry_value]
  by_cases hov : USIZE_MAX < typeUnitLen typ * cnt
  · simp [hov]
  rw [if_neg hov]
  by_cases h0 : typeUnitLen typ = 0
  · simp [h0]
  rw [if_neg h0]
  by_cases hle : typeUnitLen typ * cnt ≤ 4
  · rw [if_pos hle]
    cases typeDecode en typ data valofs_at cnt <;> simp
  · rw [if_neg hle]
    cases hp : loadu32 en data valofs_at with
    | none => simp [hp]
    | some p =>
      simp only [hp]
      by_cases hb : data.length < p ∨ data.length - p < typeUnitLen typ * cnt
      · simp [hb]
      rw [if_neg hb]
      cases typeDecode en typ data p cnt <;> simp

/-- The structural errors the IFD walker can produce. -/
def ifdErrors : List Error :=
  [.invalidFormat "Truncated IFD count", .invalidFormat "Truncated IFD",
   .invalidFormat "Invalid entry count", .invalidFormat "Truncated field value",
   .invalidFormat "Invalid pointer", .invalidFormat "Truncated next IFD offset",
   .invalidFormat "Unexpected next IFD"]

theorem entry_value_err_mem {en : Endianness} {data : List Nat} {typ cnt valofs_at : Nat}
    {e : Error} (h : entry_value en data typ cnt valofs_at = .err e) : e ∈ ifdErrors := by
  simp only [entry_value] at h
  by_cases hov : USIZE_MAX < typeUnitLen typ * cnt
  · rw [if_pos hov] at h
    cases h
    decide
  rw [if_neg hov] at h
  by_cases h0 : typeUnitLen typ = 0
  · rw [if_pos h0] at h
    cases h
  rw [if_neg h0] at h
  by_cases hle : typeUnitLen typ * cnt ≤ 4
  · rw [if_pos hle] at h
    cases htd : typeDecode en typ data valofs_at cnt <;> simp only [htd] at h <;> cases h
  rw [if_neg hle] at h
  cases hp : loadu32 en data valofs_at with
  | none => simp only [hp] at h; cases h
  | some p =>
    simp only [hp] at h
    by_cases hb : data.length < p ∨ data.length - p < typeUnitLen typ * cnt
    · rw [if_pos hb] at h
      cases h
      decide
    rw [if_neg hb] at h
    cases htd : typeDecode en typ data p cnt <;> simp only [htd] at h <;> cases h

theorem parse_entries_ne_oob
    {child : List Field → Value → Context → TiffResult (List Field)}
    {en : Endianness} {data : List Nat} {offset : Nat} {ctx : Context} {tb : Bool}
    (hchild : ∀ fl val cctx, child fl val cctx ≠ .oob) :
    ∀ rem i fields, offset + 2 + (i + rem) * 12 ≤ data.length →
      parse_entries child en data offset ctx tb rem i fields ≠ .oob := by
  intro rem
  induction rem with
  | zero => intro i fields _; simp [parse_entries]
  | succ r ih =>
    intro i fields hb
    obtain ⟨tg, htg⟩ := Option.isSome_iff_exists.1
      ((loadu16_isSome en data (offset + 2 + i * 12)).2 (by omega))
    obtain ⟨tp, htp⟩ := Option.isSome_iff_exists.1
      ((loadu16_isSome en data (offset + 2 + i * 12 + 2)).2 (by omega))
    obtain ⟨cn, hcn⟩ := Option.isSome_iff_exists.1
      ((loadu32_isSome en data (offset + 2 + i * 12 + 4)).2 (by omega))
    simp only [parse_entries, htg, htp, hcn]
    cases hev : entry_value en data tp cn (offset + 2 + i * 12 + 8) with
    | ok val =>
      cases hpc : pointer_child ctx tg with
      | some cctx =>
        cases hc : child fields val cctx with
        | ok fl2 =>
          simp only [hev, hpc, hc]
          exact ih (i + 1) fl2 (by omega)
        | err e => simp [hev, hpc, hc]
        | oob => exact absurd hc (hchild _ _ _)
        | outOfFuel => simp [hev, hpc, hc]
      | none =>
        simp only [hev, hpc]
        exact ih (i + 1) _ (by omega)
    | err e => simp [hev]
    | oob => exact absurd hev (entry_value_ne_oob (by omega))
    | outOfFuel => simp [hev]

theorem parse_ifd_ne_oob (en : Endianness) :
    ∀ fuel fields data offset ctx tb,
      parse_ifd en fuel fields data offset ctx tb ≠ .oob := by
  intro fuel
  induction fuel with
  | zero => intro fields data offset ctx tb; simp [parse_ifd]
  | succ f ih =>
    intro fields data offset ctx tb
    simp only [parse_ifd]
    by_cases hg : data.length < offset ∨ data.length - offset < 2
    · simp [hg]
    rw [if_neg hg]
    obtain ⟨count, hcount⟩ := Option.isSome_iff_exists.1
      ((loadu16_isSome en data offset).2 (by omega))
    simp only [hcount]
    by_cases h2 : data.length - offset - 2 < count * 12
    · simp [h2]
    rw [if_neg h2]
    have hchild : ∀ (fl : List Field) (val : Value) (cctx : Context),
        (match val.get_uint 0 with
         | none => TiffResult.err (Error.invalidFormat "Invalid pointer")
         | some ofs => parse_ifd en f fl data ofs cctx tb) ≠ TiffResult.oob := by
      intro fl val cctx
      cases val.get_uint 0 with
      | none => simp
      | some p => exact ih fl data p cctx tb
    cases hpe : parse_entries
        (fun fl val cctx =>
          match val.get_uint 0 with
          | none => TiffResult.err (Error.invalidFormat "Invalid pointer")
          | some ofs => parse_ifd en f fl data ofs cctx tb)
        en data offset ctx tb count 0 fields with
    | ok fields2 =>
      simp only [hpe]
      by_cases h3 : data.length - offset - 2 - count * 12 < 4
      · simp [h3]
      rw [if_neg h3]
      obtain ⟨nx, hnx⟩ := Option.isSome_iff_exists.1
        ((loadu32_isSome en data (offset + 2 + count * 12)).2 (by omega))
      simp only [hnx]
      by_cases h4 : nx = 0
      · simp [h4]
      rw [if_neg h4]
      by_cases h5 : ctx ≠ Context.tiff ∨ tb = true
      · simp [h5]
      rw [if_neg h5]
      exact ih fields2 data nx Context.tiff true
    | err e => simp [hpe]
    | oob => exact absurd hpe (parse_entries_ne_oob hchild count 0 fields (by omega))
    | outOfFuel => simp [hpe]

theorem parse_exif_sub_ne_oob {en : Endianness} {data : List Nat}
    (h8 : 8 ≤ data.length) : parse_exif_sub en data ≠ .oob := by
  simp only [parse_exif_sub]
  by_cases h42 : loadu16 en data 2 ≠ some TIFF_FORTY_TWO
  · simp [h42]
  rw [if_neg h42]
  obtain ⟨o, ho⟩ := Option.isSome_iff_exists.1 ((loadu32_isSome en data 4).2 (by omega))
  rw [ho]
  exact parse_ifd_ne_oob en ifdFuel [] data o Context.tiff false

/-! ### Claim C1 -/

/-- C1.  For every input buffer, `parse_exif` performs no out-of-bounds read:
every byte range it accesses (the 8-byte header, the 2-byte entry count, each
12-byte entry, the 4-byte inline value slot, any indirect value range, and
the 4-byte next-IFD offset) is checked against the buffer length before the
access, so the embedded function is total and its out-of-range branch
(`TiffResult.oob`) is unreachable. -/
theorem c1_parse_exif_no_oob (data : List Nat) : parse_exif data ≠ TiffResult.oob := by
  simp only [parse_exif]
  by_cases h8 : data.length < 8
  · simp [h8]
  rw [if_neg h8]
  obtain ⟨m, hm⟩ := Option.isSome_iff_exists.1
    ((loadu16_isSome Endianness.big data 0).2 (by omega))
  simp only [hm]
  by_cases hbe : m = TIFF_BE
  · rw [if_pos hbe]
    intro hcon
    rw [map_eq_oob] at hcon
    exact parse_exif_sub_ne_oob (by omega) hcon
  rw [if_neg hbe]
  by_cases hle : m = TIFF_LE
  · rw [if_pos hle]
    intro hcon
    rw [map_eq_oob] at hcon
    exact parse_exif_sub_ne_oob (by omega) hcon
  rw [if_neg hle]
  simp

/-! ### Termination of the walk (claim C2) -/

theorem pointer_child_some {ctx : Context} {t : Nat} {c : Context}
    (h : pointer_child ctx t = some c) : ctx = Context.tiff ∧ c ≠ Context.tiff := by
  cases ctx <;> simp only [pointer_child] at h
  · constructor
    · rfl
    · split_ifs at h <;> cases h <;> simp
  all_goals cases h

theorem contextRank_pos (ctx : Context) (tb : Bool) : 1 ≤ contextRank ctx tb := by
  cases ctx <;> cases tb <;> simp [contextRank]

theorem contextRank_ne_tiff {c : Context} (h : c ≠ Context.tiff) (tb : Bool) :
    contextRank c tb = 1 := by
  cases c <;> simp_all [contextRank]

theorem parse_entries_ne_outOfFuel
    {child : List Field → Value → Context → TiffResult (List Field)}
    {en : Endianness} {data : List Nat} {offset : Nat} {ctx : Context} {tb : Bool}
    (hchild : ∀ fl val cctx, (∃ t, pointer_child ctx t = some cctx) →
      child fl val cctx ≠ .outOfFuel) :
    ∀ rem i fields, parse_entries child en data offset ctx tb rem i fields ≠ .outOfFuel := by
  intro rem
  induction rem with
  | zero => intro i fields; simp [parse_entries]
  | succ r ih =>
    intro i fields
    cases htg : loadu16 en data (offset + 2 + i * 12) with
    | none => simp [parse_entries, htg]
    | some tg =>
      cases htp : loadu16 en data (offset + 2 + i * 12 + 2) with
      | none => simp [parse_entries, htg, htp]
      | some tp =>
        cases hcn : loadu32 en data (offset + 2 + i * 12 + 4) with
        | none => simp [parse_entries, htg, htp, hcn]
        | some cn =>
          simp only [parse_entries, htg, htp, hcn]
          cases hev : entry_value en data tp cn (offset + 2 + i * 12 + 8) with
          | ok val =>
            cases hpc : pointer_child ctx tg with
            | some cctx =>
              cases hc : child fields val cctx with
              | ok fl2 =>
                simp only [hev, hpc, hc]
                exact ih (i + 1) fl2
              | err e => simp [hev, hpc, hc]
              | oob => simp [hev, hpc, hc]
              | outOfFuel => exact absurd hc (hchild fields val cctx ⟨tg, hpc⟩)
            | none =>
              simp only [hev, hpc]
              exact ih (i + 1) _
          | err e => simp [hev]
          | oob => simp [hev]
          | outOfFuel => exact absurd hev entry_value_ne_outOfFuel

theorem parse_ifd_ne_outOfFuel (en : Endianness) :
    ∀ fuel fields data offset ctx tb, contextRank ctx tb ≤ fuel →
      parse_ifd en fuel fields data offset ctx tb ≠ .outOfFuel := by
  intro fuel
  induction fuel with
  | zero =>
    intro fields data offset ctx tb hrank
    exact absurd (le_trans (contextRank_pos ctx tb) hrank) (by omega)
  | succ f ih =>
    intro fields data offset ctx tb hrank
    simp only [parse_ifd]
    by_cases hg : data.length < offset ∨ data.length - offset < 2
    · simp [hg]
    rw [if_neg hg]
    cases hcount : loadu16 en data offset with
    | none => simp
    | some count =>
      simp only [hcount]
      by_cases h2 : data.length - offset - 2 < count * 12
      · simp [h2]
      rw [if_neg h2]
      have hchild : ∀ (fl : List Field) (val : Value) (cctx : Context),
          (∃ t, pointer_child ctx t = some cctx) →
          (match val.get_uint 0 with
           | none => TiffResult.err (Error.invalidFormat "Invalid pointer")
           | some ofs => parse_ifd en f fl data ofs cctx tb) ≠ TiffResult.outOfFuel := by
        intro fl val cctx ⟨t, hpt⟩
        obtain ⟨hctx, hne⟩ := pointer_child_some hpt
        cases val.get_uint 0 with
        | none => simp
        | some p =>
          apply ih
          rw [contextRank_ne_tiff hne tb]
          subst hctx
          have : 2 ≤ contextRank Context.tiff tb := by cases tb <;> simp [contextRank]
          omega
      cases hpe : parse_entries
          (fun fl val cctx =>
            match val.get_uint 0 with
            | none => TiffResult.err (Error.invalidFormat "Invalid pointer")
            | some ofs => parse_ifd en f fl data ofs cctx tb)
          en data offset ctx tb count 0 fields with
      | ok fields2 =>
        simp only [hpe]
        by_cases h3 : data.length - offset - 2 - count * 12 < 4
        · simp [h3]
        rw [if_neg h3]
        cases hnx : loadu32 en data (offset + 2 + count * 12) with
        | none => simp
        | some nx =>
          simp only [hnx]
          by_cases h4 : nx = 0
          · simp [h4]
          rw [if_neg h4]
          by_cases h5 : ctx ≠ Context.tiff ∨ tb = true
          · simp [h5]
          rw [if_neg h5]
          apply ih
          push_neg at h5
          obtain ⟨hctx, htb⟩ := h5
          subst hctx
          have htbf : tb = false := by cases tb <;> simp_all
          subst htbf
          simp [contextRank] at hrank ⊢
          omega
      | err e => simp [hpe]
      | oob => simp [hpe]
      | outOfFuel => exact absurd hpe (parse_entries_ne_outOfFuel hchild count 0 fields)

/-- Big-endian buffer of the crate's `inf_loop_by_next` test: one entry
`(tag 0x0100, type 3, count 1, value 0x0014)` and a next-IFD offset pointing
back at the 0th IFD's own offset 8. -/
def loopBuf : List Nat :=
  [0x4d, 0x4d, 0x00, 0x2a, 0x00, 0x00, 0x00, 0x08,
   0x00, 0x01, 0x01, 0x00, 0x00, 0x03, 0x00, 0x00, 0x00, 0x01,
   0x00, 0x14, 0x00, 0x00, 0x00, 0x00, 0x00, 0x08]

/-- `loopBuf` with the next-IFD offset zeroed, so the chain terminates. -/
def loopBufEnd : List Nat :=
  [0x4d, 0x4d, 0x00, 0x2a, 0x00, 0x00, 0x00, 0x08,
   0x00, 0x01, 0x01, 0x00, 0x00, 0x03, 0x00, 0x00, 0x00, 0x01,
   0x00, 0x14, 0x00, 0x00, 0x00, 0x00, 0x00, 0x00]

/-- C2.  For every input buffer the IFD walk terminates: the fuel bound given
by `contextRank` (3 for the primary walk) is never exhausted, a successful
walk in any state other than (primary, not-thumbnail) can only have read a
zero next-IFD offset, a walk in such a state that does reach a nonzero
next-IFD offset fails with exactly "Unexpected next IFD", and the buffer
whose 0th IFD's next-IFD offset points back at the 0th IFD's own offset
fails with exactly that error on the second visit (the walk of the same
directory as the 1st IFD with the thumbnail flag set) rather than looping. -/
theorem c2_walk_terminates :
    (∀ (en : Endianness) (fuel : Nat) (fields : List Field) (data : List Nat)
       (offset : Nat) (ctx : Context) (tb : Bool), contextRank ctx tb ≤ fuel →
       parse_ifd en fuel fields data offset ctx tb ≠ TiffResult.outOfFuel)
  ∧ (∀ (en : Endianness) (f : Nat) (fields : List Field) (data : List Nat)
       (offset : Nat) (ctx : Context) (tb : Bool) (count : Nat) (fields' : List Field)
       (nx : Nat),
       parse_ifd en (f + 1) fields data offset ctx tb = TiffResult.ok fields' →
       (ctx ≠ Context.tiff ∨ tb = true) →
       loadu16 en data offset = some count →
       loadu32 en data (offset + 2 + count * 12) = some nx →
       nx = 0)
  ∧ (∀ (en : Endianness) (f : Nat) (fields : List Field) (data : List Nat)
       (offset : Nat) (ctx : Context) (tb : Bool) (count : Nat) (fields2 : List Field)
       (nx : Nat),
       ¬(data.length < offset ∨ data.length - offset < 2) →
       loadu16 en data offset = some count →
       ¬(data.length - offset - 2 < count * 12) →
       parse_entries
         (fun fl val cctx =>
           match val.get_uint 0 with
           | none => TiffResult.err (Error.invalidFormat "Invalid pointer")
           | some ofs => parse_ifd en f fl data ofs cctx tb)
         en data offset ctx tb count 0 fields = TiffResult.ok fields2 →
       ¬(data.length - offset - 2 - count * 12 < 4) →
       loadu32 en data (offset + 2 + count * 12) = some nx →
       nx ≠ 0 →
       (ctx ≠ Context.tiff ∨ tb = true) →
       parse_ifd en (f + 1) fields data offset ctx tb =
         TiffResult.err (Error.invalidFormat "Unexpected next IFD"))
  ∧ parse_exif loopBuf = TiffResult.err (Error.invalidFormat "Unexpected next IFD")
  ∧ parse_ifd Endianness.big 2 [⟨⟨Context.tiff, 0x100⟩, false, Value.short [20]⟩]
      loopBuf 8 Context.tiff true =
      TiffResult.err (Error.invalidFormat "Unexpected next IFD") := by
  refine ⟨fun en fuel fields data offset ctx tb h =>
      parse_ifd_ne_outOfFuel en fuel fields data offset ctx tb h, ?_, ?_, by decide, by decide⟩
  · intro en f fields data offset ctx tb count fields' nx h hstate hcount hnx
    simp only [parse_ifd] at h
    by_cases hg : data.length < offset ∨ data.length - offset < 2
    · rw [if_pos hg] at h
      cases h
    rw [if_neg hg] at h
    simp only [hcount] at h
    by_cases h2 : data.length - offset - 2 < count * 12
    · rw [if_pos h2] at h
      cases h
    rw [if_neg h2] at h
    cases hpe : parse_entries
        (fun fl val cctx =>
          match val.get_uint 0 with
          | none => TiffResult.err (Error.invalidFormat "Invalid pointer")
          | some ofs => parse_ifd en f fl data ofs cctx tb)
        en data offset ctx tb count 0 fields with
    | ok fields2 =>
      simp only [hpe] at h
      by_cases h3 : data.length - offset - 2 - count * 12 < 4
      · rw [if_pos h3] at h
        cases h
      rw [if_neg h3] at h
      simp only [hnx] at h
      by_cases h4 : nx = 0
      · exact h4
      rw [if_neg h4, if_pos hstate] at h
      cases h
    | err e => simp only [hpe] at h; cases h
    | oob => simp only [hpe] at h; cases h
    | outOfFuel => simp only [hpe] at h; cases h
  · intro en f fields data offset ctx tb count fields2 nx hg hcount h2 hpe h3 hnx hnz hstate
    simp only [parse_ifd]
    rw [if_neg hg]
    simp only [hcount]
    rw [if_neg h2]
    simp only [hpe]
    rw [if_neg h3]
    simp only [hnx]
    rw [if_neg hnz, if_pos hstate]

/-- Witness for C2: the fuel bound applied at the primary context with the
exact fuel the top-level parser uses. -/
theorem c2_walk_terminates_witness :
    parse_ifd Endianness.big 3 [] [] 0 Context.tiff false ≠ TiffResult.outOfFuel :=
  c2_walk_terminates.1 Endianness.big 3 [] [] 0 Context.tiff false (by decide)

/-! ### Possible walker errors (claim C4 infrastructure) -/

theorem parse_entries_err_mem
    {child : List Field → Value → Context → TiffResult (List Field)}
    {en : Endianness} {data : List Nat} {offset : Nat} {ctx : Context} {tb : Bool}
    (hchild : ∀ fl val cctx e, (∃ t, pointer_child ctx t = some cctx) →
      child fl val cctx = .err e → e ∈ ifdErrors) :
    ∀ rem i fields e, parse_entries child en data offset ctx tb rem i fields = .err e →
      e ∈ ifdErrors := by
  intro rem
  induction rem with
  | zero => intro i fields e h; simp only [parse_entries] at h; cases h
  | succ r ih =>
    intro i fields e h
    cases htg : loadu16 en data (offset + 2 + i * 12) with
    | none => simp only [parse_entries, htg] at h; cases h
    | some tg =>
      cases htp : loadu16 en data (offset + 2 + i * 12 + 2) with
      | none => simp only [parse_entries, htg, htp] at h; cases h
      | some tp =>
        cases hcn : loadu32 en data (offset + 2 + i * 12 + 4) with
        | none => simp only [parse_entries, htg, htp, hcn] at h; cases h
        | some cn =>
          simp only [parse_entries, htg, htp, hcn] at h
          cases hev : entry_value en data tp cn (offset + 2 + i * 12 + 8) with
          | ok val =>
            cases hpc : pointer_child ctx tg with
            | some cctx =>
              cases hc : child fields val cctx with
              | ok fl2 =>
                simp only [hev, hpc, hc] at h
                exact ih (i + 1) fl2 e h
              | err e2 =>
                simp only [hev, hpc, hc] at h
                cases h
                exact hchild fields val cctx _ ⟨tg, hpc⟩ hc
              | oob => simp only [hev, hpc, hc] at h; cases h
              | outOfFuel => simp only [hev, hpc, hc] at h; cases h
            | none =>
              simp only [hev, hpc] at h
              exact ih (i + 1) _ e h
          | err e2 =>
            simp only [hev] at h
            cases h
            exact entry_value_err_mem hev
          | oob => simp only [hev] at h; cases h
          | outOfFuel => simp only [hev] at h; cases h

theorem parse_ifd_err_mem (en : Endianness) :
    ∀ fuel fields data offset ctx tb e,
      parse_ifd en fuel fields data offset ctx tb = .err e → e ∈ ifdErrors := by
  intro fuel
  induction fuel with
  | zero => intro fields data offset ctx tb e h; simp only [parse_ifd] at h; cases h
  | succ f ih =>
    intro fields data offset ctx tb e h
    simp only [parse_ifd] at h
    by_cases hg : data.length < offset ∨ data.length - offset < 2
    · rw [if_pos hg] at h
      cases h
      decide
    rw [if_neg hg] at h
    cases hcount : loadu16 en data offset with
    | none => simp only [hcount] at h; cases h
    | some count =>
      simp only [hcount] at h
      by_cases h2 : data.length - offset - 2 < count * 12
      · rw [if_pos h2] at h
        cases h
        decide
      rw [if_neg h2] at h
      have hchild : ∀ (fl : List Field) (val : Value) (cctx : Context) (e2 : Error),
          (∃ t, pointer_child ctx t = some cctx) →
          (match val.get_uint 0 with
           | none => TiffResult.err (Error.invalidFormat "Invalid pointer")
           | some ofs => parse_ifd en f fl data ofs cctx tb) = TiffResult.err e2 →
          e2 ∈ ifdErrors := by
        intro fl val cctx e2 _ hc
        cases hu : val.get_uint 0 with
        | none => simp only [hu] at hc; cases hc; decide
        | some p => simp only [hu] at hc; exact ih fl data p cctx tb e2 hc
      cases hpe : parse_entries
          (fun fl val cctx =>
            match val.get_uint 0 with
            | none => TiffResult.err (Error.invalidFormat "Invalid pointer")
            | some ofs => parse_ifd en f fl data ofs cctx tb)
          en data offset ctx tb count 0 fields with
      | ok fields2 =>
        simp only [hpe] at h
        by_cases h3 : data.length - offset - 2 - count * 12 < 4
        · rw [if_pos h3] at h
          cases h
          decide
        rw [if_neg h3] at h
        cases hnx : loadu32 en data (offset + 2 + count * 12) with
        | none => simp only [hnx] at h; cases h
        | some nx =>
          simp only [hnx] at h
          by_cases h4 : nx = 0
          · rw [if_pos h4] at h
            cases h
          rw [if_neg h4] at h
          by_cases h5 : ctx ≠ Context.tiff ∨ tb = true
          · rw [if_pos h5] at h
            cases h
            decide
          rw [if_neg h5] at h
          exact ih fields2 data nx Context.tiff true e h
      | err e2 =>
        simp only [hpe] at h
        cases h
        exact parse_entries_err_mem hchild count 0 fields _ hpe
      | oob => simp only [hpe] at h; cases h
      | outOfFuel => simp only [hpe] at h; cases h

theorem parse_exif_sub_ne_header {en : Endianness} {data : List Nat}
    (h8 : 8 ≤ data.length) :
    parse_exif_sub en data ≠ .err (.invalidFormat "Truncated TIFF header") := by
  simp only [parse_exif_sub]
  by_cases h42 : loadu16 en data 2 ≠ some TIFF_FORTY_TWO
  · rw [if_pos h42]; simp
  rw [if_neg h42]
  obtain ⟨o, ho⟩ := Option.isSome_iff_exists.1 ((loadu32_isSome en data 4).2 (by omega))
  simp only [ho]
  intro hcon
  exact absurd (parse_ifd_err_mem en ifdFuel [] data o Context.tiff false _ hcon) (by decide)

/-- C4.  `parse_exif` fails with "Truncated TIFF header" exactly when the
input is shorter than 8 bytes; otherwise bytes 0-1, read big-endian, select
the byte order (`0x4d4d` big-endian with returned flag `false`, `0x4949`
little-endian with flag `true`, anything else "Invalid TIFF byte order"),
and the byte-order-specialized sub-parser then requires bytes 2-3, read in
the chosen order, to equal 0x002a, failing with "Invalid forty two". -/
theorem c4_header_checks :
    ∀ data : List Nat,
      (parse_exif data = TiffResult.err (Error.invalidFormat "Truncated TIFF header") ↔
        data.length < 8)
    ∧ (8 ≤ data.length →
        ∀ m, loadu16 Endianness.big data 0 = some m →
          (m = TIFF_BE →
            parse_exif data = (parse_exif_sub Endianness.big data).map (fun v => (v, false)))
          ∧ (m = TIFF_LE →
            parse_exif data = (parse_exif_sub Endianness.little data).map (fun v => (v, true)))
          ∧ (m ≠ TIFF_BE → m ≠ TIFF_LE →
            parse_exif data = TiffResult.err (Error.invalidFormat "Invalid TIFF byte order")))
    ∧ (∀ en, loadu16 en data 2 ≠ some TIFF_FORTY_TWO →
        parse_exif_sub en data = TiffResult.err (Error.invalidFormat "Invalid forty two")) := by
  intro data
  refine ⟨⟨?_, ?_⟩, ?_, ?_⟩
  · intro h
    by_contra h8
    simp only [parse_exif, if_neg h8] at h
    obtain ⟨m, hm⟩ := Option.isSome_iff_exists.1
      ((loadu16_isSome Endianness.big data 0).2 (by omega))
    simp only [hm] at h
    by_cases hbe : m = TIFF_BE
    · rw [if_pos hbe, map_eq_err] at h
      exact parse_exif_sub_ne_header (by omega) h
    rw [if_neg hbe] at h
    by_cases hle : m = TIFF_LE
    · rw [if_pos hle, map_eq_err] at h
      exact parse_exif_sub_ne_header (by omega) h
    rw [if_neg hle] at h
    simp at h
  · intro h8
    simp [parse_exif, h8]
  · intro h8 m hm
    refine ⟨?_, ?_, ?_⟩
    · intro hbe
      simp only [parse_exif, if_neg (show ¬data.length < 8 by omega), hm]
      rw [if_pos hbe]
    · intro hle
      simp only [parse_exif, if_neg (show ¬data.length < 8 by omega), hm]
      rw [if_neg (by simp [hle, TIFF_BE, TIFF_LE]), if_pos hle]
    · intro hbe hle
      simp only [parse_exif, if_neg (show ¬data.length < 8 by omega), hm]
      rw [if_neg hbe, if_neg hle]
  · intro en h42
    simp only [parse_exif_sub]
    rw [if_pos h42]

/-- Witness for C4: the empty buffer is shorter than 8 bytes, so the parse
fails with exactly the truncated-header error. -/
theorem c4_header_checks_witness :
    parse_exif [] = TiffResult.err (Error.invalidFormat "Truncated TIFF header") :=
  (c4_header_checks []).1.mpr (by decide)

/-- C3.  For every entry with a recognized type code, the value length
`unit_size * count` is computed with explicit overflow checking (overflow
aborts with "Invalid entry count", never a wrapped length); a checked length
of at most 4 is decoded directly from the entry's 4-byte slot position, and
a larger one makes the slot a 32-bit offset `p` that must satisfy
`p ≤ len(buffer)` and `len(buffer) - p ≥ value_len` (else "Truncated field
value") before decoding at position `p`. -/
theorem c3_entry_value_resolution :
    ∀ (en : Endianness) (data : List Nat) (typ cnt valofs_at : Nat),
      typeUnitLen typ ≠ 0 →
      (USIZE_MAX < typeUnitLen typ * cnt →
        entry_value en data typ cnt valofs_at =
          TiffResult.err (Error.invalidFormat "Invalid entry count"))
      ∧ (typeUnitLen typ * cnt ≤ USIZE_MAX → typeUnitLen typ * cnt ≤ 4 →
        entry_value en data typ cnt valofs_at =
          match typeDecode en typ data valofs_at cnt with
          | some v => TiffResult.ok v
          | none => TiffResult.oob)
      ∧ (typeUnitLen typ * cnt ≤ USIZE_MAX → 4 < typeUnitLen typ * cnt →
        ∀ p, loadu32 en data valofs_at = some p →
          ((p ≤ data.length ∧ typeUnitLen typ * cnt ≤ data.length - p) →
            entry_value en data typ cnt valofs_at =
              match typeDecode en typ data p cnt with
              | some v => TiffResult.ok v
              | none => TiffResult.oob)
          ∧ (¬(p ≤ data.length ∧ typeUnitLen typ * cnt ≤ data.length - p) →
            entry_value en data typ cnt valofs_at =
              TiffResult.err (Error.invalidFormat "Truncated field value"))) := by
  intro en data typ cnt valofs_at h0
  refine ⟨?_, ?_, ?_⟩
  · intro hov
    simp only [entry_value]
    rw [if_pos hov]
  · intro hov hle
    simp only [entry_value]
    rw [if_neg (by omega), if_neg h0, if_pos hle]
  · intro hov hgt p hp
    constructor
    · intro hb
      simp only [entry_value]
      rw [if_neg (by omega), if_neg h0, if_neg (by omega)]
      simp only [hp]
      rw [if_neg (by omega)]
    · intro hb
      simp only [entry_value]
      rw [if_neg (by omega), if_neg h0, if_neg (by omega)]
      simp only [hp]
      rw [if_pos (by omega)]

/-- Witness for C3: unit size 8 with count `2^62` overflows a 64-bit size and
aborts with the invalid-entry-count error, on any buffer. -/
theorem c3_entry_value_resolution_witness :
    entry_value Endianness.big [] 5 (2 ^ 62) 0 =
      TiffResult.err (Error.invalidFormat "Invalid entry count") :=
  (c3_entry_value_resolution Endianness.big [] 5 (2 ^ 62) 0 (by decide)).1 (by decide)

/-- Buffer whose single entry has the Exif-pointer tag 0x8769 and the
unrecognized type code 0xffff. -/
def unknownPointerBuf : List Nat :=
  [0x4d, 0x4d, 0x00, 0x2a, 0x00, 0x00, 0x00, 0x08,
   0x00, 0x01, 0x87, 0x69, 0xff, 0xff, 0x00, 0x00, 0x00, 0x01,
   0x00, 0x00, 0x00, 0x00, 0x00, 0x00, 0x00, 0x00]

/-- Counterexample to C5 as stated: this buffer's single entry has an
unrecognized type code (unit size 0), yet the parse produces no field at all
— the entry's tag is a sub-directory pointer tag, so the `Unknown` value is
fed to the pointer resolution, which fails with "Invalid pointer". -/
theorem c5_unknown_counterexample :
    typeUnitLen 0xffff = 0 ∧
      parse_exif unknownPointerBuf = TiffResult.err (Error.invalidFormat "Invalid pointer") := by
  constructor
  · decide
  · decide

/-- C5 (amended).  For every entry whose type code is unrecognized (unit
size 0), the resolved value is the `Unknown` variant carrying that type code,
the declared count, and the offset of the entry's own 4-byte value slot,
with no bounds check or dereference of the slot contents (the result is the
same for every buffer, including the empty one); if the entry's tag is not a
sub-directory pointer tag, exactly one field carrying that value is appended;
if it is a pointer tag, the parse instead fails with "Invalid pointer". -/
theorem c5_unknown_type_entries :
    (∀ (en : Endianness) (data : List Nat) (typ cnt valofs_at : Nat),
      typeUnitLen typ = 0 →
      entry_value en data typ cnt valofs_at = TiffResult.ok (Value.unknown typ cnt valofs_at))
  ∧ (∀ (child : List Field → Value → Context → TiffResult (List Field))
       (en : Endianness) (data : List Nat) (offset : Nat) (ctx : Context) (tb : Bool)
       (rem i : Nat) (fields : List Field) (tagnum typ cnt : Nat),
      loadu16 en data (offset + 2 + i * 12) = some tagnum →
      loadu16 en data (offset + 2 + i * 12 + 2) = some typ →
      loadu32 en data (offset + 2 + i * 12 + 4) = some cnt →
      typeUnitLen typ = 0 →
      pointer_child ctx tagnum = none →
      parse_entries child en data offset ctx tb (rem + 1) i fields =
        parse_entries child en data offset ctx tb rem (i + 1)
          (fields ++ [{ tag := ⟨ctx, tagnum⟩, thumbnail := tb,
                        value := Value.unknown typ cnt (offset + 2 + i * 12 + 8) }]))
  ∧ (∀ (en : Endianness) (fuel : Nat) (fields : List Field) (data : List Nat)
       (typ cnt ofs : Nat) (cctx : Context) (tb : Bool),
      parse_child_ifd en fuel fields data (Value.unknown typ cnt ofs) cctx tb =
        TiffResult.err (Error.invalidFormat "Invalid pointer")) := by
  have hunk : ∀ (en : Endianness) (data : List Nat) (typ cnt valofs_at : Nat),
      typeUnitLen typ = 0 →
      entry_value en data typ cnt valofs_at = TiffResult.ok (Value.unknown typ cnt valofs_at) := by
    intro en data typ cnt valofs_at h0
    simp only [entry_value]
    rw [if_neg (by simp [h0, USIZE_MAX]), if_pos h0]
  refine ⟨hunk, ?_, ?_⟩
  · intro child en data offset ctx tb rem i fields tagnum typ cnt htg htp hcn h0 hpc
    simp only [parse_entries, htg, htp, hcn, hunk en data typ cnt _ h0, hpc]
  · intro en fuel fields data typ cnt ofs cctx tb
    simp [parse_child_ifd, Value.get_uint]

/-- Witness for C5 (amended): an unrecognized type code resolves to the
`Unknown` value even on the empty buffer, with the raw slot offset. -/
theorem c5_unknown_type_entries_witness :
    entry_value Endianness.big [] 0xffff 5 99 =
      TiffResult.ok (Value.unknown 0xffff 5 99) :=
  c5_unknown_type_entries.1 Endianness.big [] 0xffff 5 99 (by decide)

/-! ### Structure of the emitted field list (claims C6 and C7) -/

theorem parse_entries_ok_append
    {child : List Field → Value → Context → TiffResult (List Field)}
    {en : Endianness} {data : List Nat} {offset : Nat} {ctx : Context} {tb : Bool}
    (P : Field → Prop)
    (hchild : ∀ fl val cctx fl', (∃ t, pointer_child ctx t = some cctx) →
      child fl val cctx = .ok fl' → ∃ ap, fl' = fl ++ ap ∧ ∀ f ∈ ap, P f)
    (hpush : ∀ tagnum val, pointer_child ctx tagnum = none →
      P { tag := ⟨ctx, tagnum⟩, thumbnail := tb, value := val }) :
    ∀ rem i fields fields',
      parse_entries child en data offset ctx tb rem i fields = .ok fields' →
      ∃ ap, fields' = fields ++ ap ∧ ∀ f ∈ ap, P f := by
  intro rem
  induction rem with
  | zero =>
    intro i fields fields' h
    simp only [parse_entries] at h
    cases h
    exact ⟨[], by simp⟩
  | succ r ih =>
    intro i fields fields' h
    cases htg : loadu16 en data (offset + 2 + i * 12) with
    | none => simp only [parse_entries, htg] at h; cases h
    | some tg =>
      cases htp : loadu16 en data (offset + 2 + i * 12 + 2) with
      | none => simp only [parse_entries, htg, htp] at h; cases h
      | some tp =>
        cases hcn : loadu32 en data (offset + 2 + i * 12 + 4) with
        | none => simp only [parse_entries, htg, htp, hcn] at h; cases h
        | some cn =>
          simp only [parse_entries, htg, htp, hcn] at h
          cases hev : entry_value en data tp cn (offset + 2 + i * 12 + 8) with
          | ok val =>
            cases hpc : pointer_child ctx tg with
            | some cctx =>
              cases hc : child fields val cctx with
              | ok fl2 =>
                simp only [hev, hpc, hc] at h
                obtain ⟨ap1, hap1, hP1⟩ := hchild fields val cctx fl2 ⟨tg, hpc⟩ hc
                obtain ⟨ap2, hap2, hP2⟩ := ih (i + 1) fl2 fields' h
                refine ⟨ap1 ++ ap2, ?_, ?_⟩
                · rw [hap2, hap1, List.append_assoc]
                · intro f hf
                  rcases List.mem_append.1 hf with hf | hf
                  · exact hP1 f hf
                  · exact hP2 f hf
              | err e => simp only [hev, hpc, hc] at h; cases h
              | oob => simp only [hev, hpc, hc] at h; cases h
              | outOfFuel => simp only [hev, hpc, hc] at h; cases h
            | none =>
              simp only [hev, hpc] at h
              obtain ⟨ap, hap, hP⟩ := ih (i + 1) _ fields' h
              refine ⟨{ tag := ⟨ctx, tg⟩, thumbnail := tb, value := val } :: ap, ?_, ?_⟩
              · rw [hap, List.append_assoc]
                rfl
              · intro f hf
                rcases List.mem_cons.1 hf with hf | hf
                · rw [hf]
                  exact hpush tg val hpc
                · exact hP f hf
          | err e => simp only [hev] at h; cases h
          | oob => simp only [hev] at h; cases h
          | outOfFuel => simp only [hev] at h; cases h

theorem parse_ifd_ok_structure (en : Endianness) :
    ∀ fuel fields data offset ctx tb fields',
      parse_ifd en fuel fields data offset ctx tb = .ok fields' →
      ∃ a b, fields' = fields ++ a ++ b
        ∧ (∀ f ∈ a, f.thumbnail = tb ∧ pointer_child f.tag.ctx f.tag.num = none)
        ∧ (∀ f ∈ b, f.thumbnail = true ∧ pointer_child f.tag.ctx f.tag.num = none)
        ∧ (b = [] ∨ (ctx = Context.tiff ∧ tb = false)) := by
  intro fuel
  induction fuel with
  | zero => intro fields data offset ctx tb fields' h; simp only [parse_ifd] at h; cases h
  | succ f ih =>
    intro fields data offset ctx tb fields' h
    simp only [parse_ifd] at h
    by_cases hg : data.length < offset ∨ data.length - offset < 2
    · rw [if_pos hg] at h
      cases h
    rw [if_neg hg] at h
    cases hcount : loadu16 en data offset with
    | none => simp only [hcount] at h; cases h
    | some count =>
      simp only [hcount] at h
      by_cases h2 : data.length - offset - 2 < count * 12
      · rw [if_pos h2] at h
        cases h
      rw [if_neg h2] at h
      have hchild : ∀ (fl : List Field) (val : Value) (cctx : Context) (fl' : List Field),
          (∃ t, pointer_child ctx t = some cctx) →
          (match val.get_uint 0 with
           | none => TiffResult.err (Error.invalidFormat "Invalid pointer")
           | some ofs => parse_ifd en f fl data ofs cctx tb) = TiffResult.ok fl' →
          ∃ ap, fl' = fl ++ ap ∧ ∀ fld ∈ ap,
            fld.thumbnail = tb ∧ pointer_child fld.tag.ctx fld.tag.num = none := by
        intro fl val cctx fl' hex hc
        obtain ⟨t, hpt⟩ := hex
        obtain ⟨hctx, hne⟩ := pointer_child_some hpt
        cases hu : val.get_uint 0 with
        | none => simp only [hu] at hc; cases hc
        | some p =>
          simp only [hu] at hc
          obtain ⟨a, b, hab, hPa, hPb, hdisj⟩ := ih fl data p cctx tb fl' hc
          have hb : b = [] := by
            rcases hdisj with hb | ⟨hcc, _⟩
            · exact hb
            · exact absurd hcc hne
          subst hb
          refine ⟨a, by simpa using hab, hPa⟩
      cases hpe : parse_entries
          (fun fl val cctx =>
            match val.get_uint 0 with
            | none => TiffResult.err (Error.invalidFormat "Invalid pointer")
            | some ofs => parse_ifd en f fl data ofs cctx tb)
          en data offset ctx tb count 0 fields with
      | ok fields2 =>
        simp only [hpe] at h
        obtain ⟨ap, hap, hPap⟩ := parse_entries_ok_append
          (fun fl => fl.thumbnail = tb ∧ pointer_child fl.tag.ctx fl.tag.num = none)
          hchild (fun tagnum val hnone => ⟨rfl, hnone⟩) count 0 fields fields2 hpe
        by_cases h3 : data.length - offset - 2 - count * 12 < 4
        · rw [if_pos h3] at h
          cases h
        rw [if_neg h3] at h
        cases hnx : loadu32 en data (offset + 2 + count * 12) with
        | none => simp only [hnx] at h; cases h
        | some nx =>
          simp only [hnx] at h
          by_cases h4 : nx = 0
          · rw [if_pos h4] at h
            cases h
            refine ⟨ap, [], by simp [hap], hPap, by simp, Or.inl rfl⟩
          rw [if_neg h4] at h
          by_cases h5 : ctx ≠ Context.tiff ∨ tb = true
          · rw [if_pos h5] at h
            cases h
          rw [if_neg h5] at h
          push_neg at h5
          obtain ⟨hctx, htb⟩ := h5
          subst hctx
          have htbf : tb = false := by cases tb <;> simp_all
          subst htbf
          obtain ⟨a2, b2, hab2, hPa2, hPb2, hdisj2⟩ :=
            ih fields2 data nx Context.tiff true fields' h
          have hb2 : b2 = [] := by
            rcases hdisj2 with hb | ⟨_, hcon⟩
            · exact hb
            · cases hcon
          subst hb2
          refine ⟨ap, a2, ?_, hPap, hPa2, Or.inr ⟨rfl, rfl⟩⟩
          simpa [hap, List.append_assoc] using hab2
      | err e => simp only [hpe] at h; cases h
      | oob => simp only [hpe] at h; cases h
      | outOfFuel => simp only [hpe] at h; cases h

theorem parse_exif_ok_ifd {data : List Nat} {fields : List Field} {e : Bool}
    (h : parse_exif data = .ok (fields, e)) :
    ∃ en o, parse_ifd en ifdFuel [] data o Context.tiff false = .ok fields := by
  simp only [parse_exif] at h
  by_cases h8 : data.length < 8
  · rw [if_pos h8] at h
    cases h
  rw [if_neg h8] at h
  obtain ⟨m, hm⟩ := Option.isSome_iff_exists.1
    ((loadu16_isSome Endianness.big data 0).2 (by omega))
  simp only [hm] at h
  by_cases hbe : m = TIFF_BE
  · rw [if_pos hbe, map_eq_ok] at h
    obtain ⟨fl, hsub, heq⟩ := h
    injection heq with h1 h2
    subst h1
    simp only [parse_exif_sub] at hsub
    by_cases h42 : loadu16 Endianness.big data 2 ≠ some TIFF_FORTY_TWO
    · rw [if_pos h42] at hsub
      cases hsub
    rw [if_neg h42] at hsub
    obtain ⟨o, ho⟩ := Option.isSome_iff_exists.1
      ((loadu32_isSome Endianness.big data 4).2 (by omega))
    simp only [ho] at hsub
    exact ⟨Endianness.big, o, hsub⟩
  rw [if_neg hbe] at h
  by_cases hle : m = TIFF_LE
  · rw [if_pos hle, map_eq_ok] at h
    obtain ⟨fl, hsub, heq⟩ := h
    injection heq with h1 h2
    subst h1
    simp only [parse_exif_sub] at hsub
    by_cases h42 : loadu16 Endianness.little data 2 ≠ some TIFF_FORTY_TWO
    · rw [if_pos h42] at hsub
      cases hsub
    rw [if_neg h42] at hsub
    obtain ⟨o, ho⟩ := Option.isSome_iff_exists.1
      ((loadu32_isSome Endianness.little data 4).2 (by omega))
    simp only [ho] at hsub
    exact ⟨Endianness.little, o, hsub⟩
  rw [if_neg hle] at h
  cases h

/-- C6.  Sub-directory pointer entries are never themselves emitted as
fields; when the walker meets one it defers to the child walk at that entry
(appending the child's fields in place and continuing with the next entry),
the child walk used by `parse_ifd` is exactly `parse_child_ifd` with the
child context and the parent's thumbnail flag, and `parse_child_ifd` fails
with "Invalid pointer" when the decoded pointer value does not yield a single
unsigned integer, and otherwise walks the child IFD at that offset. -/
theorem c6_pointer_entries :
    (∀ (data : List Nat) (fields : List Field) (e : Bool),
      parse_exif data = TiffResult.ok (fields, e) →
      ∀ f ∈ fields, pointer_child f.tag.ctx f.tag.num = none)
  ∧ (∀ (child : List Field → Value → Context → TiffResult (List Field))
       (en : Endianness) (data : List Nat) (offset : Nat) (ctx : Context) (tb : Bool)
       (rem i : Nat) (fields : List Field) (tagnum typ cnt : Nat) (val : Value)
       (cctx : Context),
      loadu16 en data (offset + 2 + i * 12) = some tagnum →
      loadu16 en data (offset + 2 + i * 12 + 2) = some typ →
      loadu32 en data (offset + 2 + i * 12 + 4) = some cnt →
      entry_value en data typ cnt (offset + 2 + i * 12 + 8) = TiffResult.ok val →
      pointer_child ctx tagnum = some cctx →
      parse_entries child en data offset ctx tb (rem + 1) i fields =
        TiffResult.bind (child fields val cctx)
          (fun fl2 => parse_entries child en data offset ctx tb rem (i + 1) fl2))
  ∧ (∀ (en : Endianness) (f : Nat) (data : List Nat) (tb : Bool),
      (fun (fl : List Field) (val : Value) (cctx : Context) =>
        match val.get_uint 0 with
        | none => TiffResult.err (Error.invalidFormat "Invalid pointer")
        | some ofs => parse_ifd en f fl data ofs cctx tb) =
      fun fl val cctx => parse_child_ifd en f fl data val cctx tb)
  ∧ (∀ (en : Endianness) (fuel : Nat) (fields : List Field) (data : List Nat)
       (pointer : Value) (cctx : Context) (tb : Bool),
      (pointer.get_uint 0 = none →
        parse_child_ifd en fuel fields data pointer cctx tb =
          TiffResult.err (Error.invalidFormat "Invalid pointer"))
      ∧ (∀ p, pointer.get_uint 0 = some p →
        parse_child_ifd en fuel fields data pointer cctx tb =
          parse_ifd en fuel fields data p cctx tb)) := by
  refine ⟨?_, ?_, ?_, ?_⟩
  · intro data fields e h f hf
    obtain ⟨en, o, hifd⟩ := parse_exif_ok_ifd h
    obtain ⟨a, b, hab, hPa, hPb, _⟩ :=
      parse_ifd_ok_structure en ifdFuel [] data o Context.tiff false fields hifd
    rw [hab] at hf
    simp only [List.nil_append] at hf
    rcases List.mem_append.1 hf with hf | hf
    · exact (hPa f hf).2
    · exact (hPb f hf).2
  · intro child en data offset ctx tb rem i fields tagnum typ cnt val cctx
      htg htp hcn hev hpc
    simp only [parse_entries, htg, htp, hcn, hev, hpc]
    cases hc : child fields val cctx <;> simp [hc, TiffResult.bind]
  · intro en f data tb
    funext fl val cctx
    rfl
  · intro en fuel fields data pointer cctx tb
    constructor
    · intro h
      simp [parse_child_ifd, h]
    · intro p hp
      simp [parse_child_ifd, hp]

/-- Witness for C6: a pointer value that is not a single unsigned integer
(an empty rational collection) makes the child walk fail with exactly the
invalid-pointer error. -/
theorem c6_pointer_entries_witness :
    parse_child_ifd Endianness.big 0 [] [] (Value.rational []) Context.exif false =
      TiffResult.err (Error.invalidFormat "Invalid pointer") :=
  (c6_pointer_entries.2.2.2 Endianness.big 0 [] [] (Value.rational [])
    Context.exif false).1 (by decide)

/-- C7.  In every successful parse the emitted field list splits into a
prefix whose fields all carry thumbnail flag `false` (the 0th IFD and its
sub-directories) followed by a suffix whose fields all carry `true` (the 1st
IFD chain); moreover a walk of a child context appends only fields carrying
the parent's unchanged thumbnail flag. -/
theorem c7_thumbnail_flags :
    (∀ (data : List Nat) (fields : List Field) (e : Bool),
      parse_exif data = TiffResult.ok (fields, e) →
      ∃ a b, fields = a ++ b ∧ (∀ f ∈ a, f.thumbnail = false) ∧
        (∀ f ∈ b, f.thumbnail = true))
  ∧ (∀ (en : Endianness) (fuel : Nat) (fields : List Field) (data : List Nat)
       (offset : Nat) (cctx : Context) (tb : Bool) (fields' : List Field),
      cctx ≠ Context.tiff →
      parse_ifd en fuel fields data offset cctx tb = TiffResult.ok fields' →
      ∃ ap, fields' = fields ++ ap ∧ ∀ f ∈ ap, f.thumbnail = tb) := by
  constructor
  · intro data fields e h
    obtain ⟨en, o, hifd⟩ := parse_exif_ok_ifd h
    obtain ⟨a, b, hab, hPa, hPb, _⟩ :=
      parse_ifd_ok_structure en ifdFuel [] data o Context.tiff false fields hifd
    refine ⟨a, b, by simpa using hab, fun f hf => (hPa f hf).1, fun f hf => (hPb f hf).1⟩
  · intro en fuel fields data offset cctx tb fields' hne h
    obtain ⟨a, b, hab, hPa, hPb, hdisj⟩ :=
      parse_ifd_ok_structure en fuel fields data offset cctx tb fields' h
    have hb : b = [] := by
      rcases hdisj with hb | ⟨hcc, _⟩
      · exact hb
      · exact absurd hcc hne
    subst hb
    exact ⟨a, by simpa using hab, fun f hf => (hPa f hf).1⟩

/-- Witness for C7: the one-field parse of the terminating loop buffer splits
into its (entire) primary prefix and an empty thumbnail suffix. -/
theorem c7_thumbnail_flags_witness :
    ∃ a b, ([{ tag := ⟨Context.tiff, 0x100⟩, thumbnail := false,
               value := Value.short [20] }] : List Field) = a ++ b ∧
      (∀ f ∈ a, f.thumbnail = false) ∧ (∀ f ∈ b, f.thumbnail = true) :=
  c7_thumbnail_flags.1 loopBufEnd _ false (by decide)

/-- C8.  On a structural error `parse_exif` returns only the error and no
partial field list: the cyclic-chain buffer fails with "Unexpected next IFD"
even though the same directory parses to a field when the chain terminates
(so fields had been accumulated and are discarded), and an erroring parse
never also offers a success value. -/
theorem c8_errors_discard_fields :
    parse_exif loopBuf = TiffResult.err (Error.invalidFormat "Unexpected next IFD")
  ∧ parse_exif loopBufEnd =
      TiffResult.ok ([{ tag := ⟨Context.tiff, 0x100⟩, thumbnail := false,
                        value := Value.short [20] }], false)
  ∧ (∀ (data : List Nat) (e : Error), parse_exif data = TiffResult.err e →
      ∀ res : List Field × Bool, parse_exif data ≠ TiffResult.ok res) := by
  refine ⟨by decide, by decide, ?_⟩
  intro data e he res hok
  rw [he] at hok
  cases hok

/-- Witness for C8: instantiating the discard property on the cyclic-chain
buffer. -/
theorem c8_errors_discard_fields_witness :
    parse_exif loopBuf ≠ TiffResult.ok ([], false) :=
  c8_errors_discard_fields.2.2 loopBuf (Error.invalidFormat "Unexpected next IFD")
    (by decide) ([], false)

/-- The 14-byte buffer of claim C9: a valid big-endian header whose 0th IFD
has zero entries and a zero next-IFD offset. -/
def emptyIfdBuf : List Nat :=
  [0x4d, 0x4d, 0x00, 0x2a, 0x00, 0x00, 0x00, 0x08, 0, 0, 0, 0, 0, 0]

/-- C9.  An IFD with zero entries is structurally valid: any buffer with a
well-formed header whose 0th-IFD offset points at a region holding entry
count 0 followed by a next-IFD offset 0 parses successfully to the empty
field list with the detected byte-order flag; in particular the 14-byte
buffer `4D 4D 00 2A 00 00 00 08 00 00 00 00 00 00` yields `([], false)`. -/
theorem c9_empty_ifd :
    (∀ (en : Endianness) (data : List Nat) (offset : Nat),
      8 ≤ data.length →
      loadu16 Endianness.big data 0 =
        some (match en with | .big => TIFF_BE | .little => TIFF_LE) →
      loadu16 en data 2 = some TIFF_FORTY_TWO →
      loadu32 en data 4 = some offset →
      loadu16 en data offset = some 0 →
      4 ≤ data.length - offset - 2 →
      loadu32 en data (offset + 2) = some 0 →
      parse_exif data =
        TiffResult.ok ([], match en with | .big => false | .little => true))
  ∧ parse_exif emptyIfdBuf = TiffResult.ok ([], false) := by
  have hifd : ∀ (en : Endianness) (f : Nat) (fields : List Field) (data : List Nat)
      (offset : Nat) (ctx : Context) (tb : Bool),
      loadu16 en data offset = some 0 →
      4 ≤ data.length - offset - 2 →
      loadu32 en data (offset + 2) = some 0 →
      parse_ifd en (f + 1) fields data offset ctx tb = TiffResult.ok fields := by
    intro en f fields data offset ctx tb hcnt hroom hnext
    have hcb : offset + 2 ≤ data.length := loadu16_bound hcnt
    simp only [parse_ifd]
    rw [if_neg (by omega)]
    simp only [hcnt]
    rw [if_neg (by omega)]
    simp only [parse_entries]
    rw [if_neg (by omega)]
    simp only [Nat.zero_mul, Nat.add_zero, hnext]
    simp
  constructor
  · intro en data offset h8 hm h42 hofs hcnt hroom hnext
    cases en with
    | big =>
      simp only [parse_exif, if_neg (show ¬data.length < 8 by omega), hm]
      rw [if_pos trivial]
      simp only [parse_exif_sub]
      rw [if_neg (not_not_intro h42)]
      simp only [hofs]
      rw [show ifdFuel = 2 + 1 from rfl,
        hifd Endianness.big 2 [] data offset Context.tiff false hcnt hroom hnext]
      rfl
    | little =>
      simp only [parse_exif, if_neg (show ¬data.length < 8 by omega), hm]
      rw [if_pos trivial]
      simp only [parse_exif_sub]
      rw [if_neg (not_not_intro h42)]
      simp only [hofs]
      rw [show ifdFuel = 2 + 1 from rfl,
        hifd Endianness.little 2 [] data offset Context.tiff false hcnt hroom hnext]
      rfl
  · decide

/-- Witness for C9: the general empty-IFD result applied to the 14-byte
buffer. -/
theorem c9_empty_ifd_witness : parse_exif emptyIfdBuf = TiffResult.ok ([], false) :=
  c9_empty_ifd.1 Endianness.big emptyIfdBuf 8 (by decide) (by decide) (by decide)
    (by decide) (by decide) (by decide) (by decide)

/-! ### The DateTime utility (claim C10) -/

theorem getD_eq_of_take_eq {d1 d2 : List Nat} (h : d1.take 19 = d2.take 19)
    {i : Nat} (hi : i < 19) (x : Nat) : d1.getD i x = d2.getD i x := by
  have h1 : d1[i]? = d2[i]? := by
    have e1 : (d1.take 19)[i]? = d1[i]? := by rw [List.getElem?_take, if_pos hi]
    have e2 : (d2.take 19)[i]? = d2[i]? := by rw [List.getElem?_take, if_pos hi]
    rw [← e1, ← e2, h]
  simp [List.getD_eq_getElem?_getD, h1]

theorem slice_eq_of_take_eq {d1 d2 : List Nat} (h : d1.take 19 = d2.take 19)
    (a b : Nat) (hb : b ≤ 19) : sliceBytes d1 a b = sliceBytes d2 a b := by
  unfold sliceBytes
  by_cases hab : a ≤ b
  · rw [List.take_drop, List.take_drop]
    have hle : a + (b - a) ≤ 19 := by omega
    have h1 : d1.take (a + (b - a)) = (d1.take 19).take (a + (b - a)) := by
      rw [List.take_take, Nat.min_eq_left hle]
    have h2 : d2.take (a + (b - a)) = (d2.take 19).take (a + (b - a)) := by
      rw [List.take_take, Nat.min_eq_left hle]
    rw [h1, h2, h]
  · have hz : b - a = 0 := by omega
    simp [hz]

theorem atou16_cases (s : List Nat) :
    (∃ v, atou16 s = .ok v) ∨ atou16 s = .err (.invalidFormat "Not a number") := by
  unfold atou16
  split_ifs with h
  · right
    rfl
  · left
    exact ⟨_, rfl⟩

theorem bind_atou16_ne_blank (s : List Nat) (f : Nat → TiffResult DateTime) (b : String)
    (hf : ∀ v, f v ≠ .err (.blankValue b)) :
    (atou16 s).bind f ≠ .err (.blankValue b) := by
  rcases atou16_cases s with ⟨v, hv⟩ | hv
  · simp only [hv, TiffResult.bind]
    exact hf v
  · simp [hv, TiffResult.bind]

/-- The sample timestamp `b"2016:05:04 03:02:01"` from the crate's doc test. -/
def dtSample : List Nat :=
  [50, 48, 49, 54, 58, 48, 53, 58, 48, 52, 32, 48, 51, 58, 48, 50, 58, 48, 49]

/-- C10.  `DateTime.from_ascii` examines only the first 19 bytes of its input
once the blank-sentinel check fails: inputs of length at least 19 that agree
on their first 19 bytes and are not byte-for-byte equal to either 19-byte
blank sentinel parse identically; the blank-value error is returned only for
inputs exactly equal to one of the two sentinels; and a 20-byte input
beginning with 19 blanks is not reported blank. -/
theorem c10_datetime_first19 :
    (∀ d1 d2 : List Nat, 19 ≤ d1.length → 19 ≤ d2.length →
      d1.take 19 = d2.take 19 →
      d1 ≠ dtBlank1 → d1 ≠ dtBlank2 → d2 ≠ dtBlank1 → d2 ≠ dtBlank2 →
      DateTime.from_ascii d1 = DateTime.from_ascii d2)
  ∧ (∀ (d : List Nat) (s : String),
      DateTime.from_ascii d = TiffResult.err (Error.blankValue s) →
      d = dtBlank1 ∨ d = dtBlank2)
  ∧ DateTime.from_ascii (dtBlank2 ++ [32]) =
      TiffResult.err (Error.invalidFormat "Invalid DateTime delimiter") := by
  refine ⟨?_, ?_, by decide⟩
  · intro d1 d2 h1 h2 ht hb1 hb2 hb3 hb4
    have hgd : ∀ i, i < 19 → d1.getD i 0 = d2.getD i 0 :=
      fun i hi => getD_eq_of_take_eq ht hi 0
    simp only [DateTime.from_ascii]
    rw [if_neg (not_or.mpr ⟨hb1, hb2⟩), if_neg (not_or.mpr ⟨hb3, hb4⟩),
      if_neg (show ¬d1.length < 19 by omega), if_neg (show ¬d2.length < 19 by omega),
      hgd 4 (by omega), hgd 7 (by omega), hgd 10 (by omega), hgd 13 (by omega),
      hgd 16 (by omega),
      slice_eq_of_take_eq ht 0 4 (by omega), slice_eq_of_take_eq ht 5 7 (by omega),
      slice_eq_of_take_eq ht 8 10 (by omega), slice_eq_of_take_eq ht 11 13 (by omega),
      slice_eq_of_take_eq ht 14 16 (by omega), slice_eq_of_take_eq ht 17 19 (by omega)]
  · intro d s h
    simp only [DateTime.from_ascii] at h
    by_cases hb : d = dtBlank1 ∨ d = dtBlank2
    · exact hb
    rw [if_neg hb] at h
    by_cases hl : d.length < 19
    · rw [if_pos hl] at h
      cases h
    rw [if_neg hl] at h
    by_cases hd : ¬(d.getD 4 0 = 58 ∧ d.getD 7 0 = 58 ∧ d.getD 10 0 = 32 ∧
        d.getD 13 0 = 58 ∧ d.getD 16 0 = 58)
    · rw [if_pos hd] at h
      cases h
    rw [if_neg hd] at h
    exact absurd h
      (bind_atou16_ne_blank _ _ _ fun y =>
        bind_atou16_ne_blank _ _ _ fun mo =>
          bind_atou16_ne_blank _ _ _ fun dd =>
            bind_atou16_ne_blank _ _ _ fun hh =>
              bind_atou16_ne_blank _ _ _ fun mi =>
                bind_atou16_ne_blank _ _ _ fun sec => by simp)

/-- Witness for C10: the sample timestamp parses identically with and without
a trailing extra byte. -/
theorem c10_datetime_first19_witness :
    DateTime.from_ascii dtSample = DateTime.from_ascii (dtSample ++ [0]) :=
  c10_datetime_first19.1 dtSample (dtSample ++ [0]) (by decide) (by decide) (by decide)
    (by decide) (by decide) (by decide) (by decide)

end Exif
